import Mathlib

/-
Verification of the rag-n-rock retrieval-augmented QA service core:
a shallow embedding of the hybrid retriever, ingestion metadata tagging,
document-loader dispatch, and the deletion/clear reconciliation flows,
together with theorems about the specified behaviour.
-/

namespace RagNRock

/-- Scalar metadata values: the system stores strings (paths, filenames,
user ids) and integers (relational file ids) in chunk metadata. -/
inductive MVal where
  | str (s : String)
  | int (n : Int)
deriving DecidableEq, Repr

/-- Python str() coercion on a metadata scalar. -/
def pyStr : MVal → String
  | .str s => s
  | .int n => toString n

/-- Python str() applied to the result of dict.get, where a missing key
yields None and str(None) = "None" (chat_handler.py line 69). -/
def pyStrOpt : Option MVal → String
  | none => "None"
  | some v => pyStr v

/-- Python truthiness of an optional metadata scalar: None, "" and 0 are
falsy, everything else truthy. -/
def pyTruthy : Option MVal → Bool
  | none => false
  | some (.str s) => !(s == "")
  | some (.int n) => !(n == 0)

/-- Chunk/document metadata: an insertion-ordered string-keyed mapping,
modelled as an association list (Python dict with unique keys). -/
abbrev Metadata := List (String × MVal)

/-- Dict lookup: value at the first occurrence of the key. -/
def mget : Metadata → String → Option MVal
  | [], _ => none
  | (k, v) :: rest, q => if k = q then some v else mget rest q

/-- Dict assignment m[q] = w: replaces the value in place if the key is
present (keeping its position), otherwise appends at the end. -/
def mset : Metadata → String → MVal → Metadata
  | [], q, w => [(q, w)]
  | (k, v) :: rest, q, w =>
    if k = q then (q, w) :: rest else (k, v) :: mset rest q w

/-- Dict update m.update(tags): assign every key/value pair of tags in
iteration order (rag_pipeline.py line 101). -/
def mupdate (m : Metadata) (tags : Metadata) : Metadata :=
  tags.foldl (fun acc p => mset acc p.1 p.2) m

/-- A langchain Document as it flows through the pipeline. oid models
Python object identity (id(doc)); retrieval deduplicates by it. -/
structure Doc where
  oid : Nat
  page_content : String
  metadata : Metadata
deriving DecidableEq, Repr

/-- Boolean test that needle is a leading segment of hay. -/
def startsWithL : List Char → List Char → Bool
  | _, [] => true
  | [], _ :: _ => false
  | a :: hay, b :: nd => a == b && startsWithL hay nd

/-- Boolean test that needle occurs contiguously inside hay: the Python
expression needle in hay on strings. -/
def containsSub : List Char → List Char → Bool
  | [], nd => nd.isEmpty
  | a :: hay, nd => startsWithL (a :: hay) nd || containsSub hay nd

/-- Python str.lower on a character, for the ASCII range the extension set
and keyword comparisons live in. -/
def lowerChar (c : Char) : Char :=
  if 65 ≤ c.toNat ∧ c.toNat ≤ 90 then Char.ofNat (c.toNat + 32) else c

/-- Python str.lower over the characters of a string. -/
def lowerL (cs : List Char) : List Char := cs.map lowerChar

/-- Python str.lower as a string-to-string function. -/
def lowerS (s : String) : String := String.mk (lowerL s.toList)

/-- Keyword test of the hybrid retriever (rag_pipeline.py lines 149-152):
the document content contains at least one keyword as a case-insensitive
substring. -/
def kwMatch (keywords : List String) (d : Doc) : Bool :=
  keywords.any (fun kw => containsSub (lowerL d.page_content.toList) (lowerL kw.toList))

/-- Python dict-comprehension deduplication keyed by object identity
(rag_pipeline.py line 154): keep the first occurrence of each oid. -/
def dedupByOidAux : List Nat → List Doc → List Doc
  | _, [] => []
  | seen, d :: rest =>
    if d.oid ∈ seen then dedupByOidAux seen rest
    else d :: dedupByOidAux (d.oid :: seen) rest

/-- Deduplicate a document list by object identity, first occurrence kept. -/
def dedupByOid (l : List Doc) : List Doc := dedupByOidAux [] l

/-- Metadata filter actually in force after the user_id injection step of
retrieve (rag_pipeline.py lines 129-132): a non-null user_id is
string-coerced and written into the filter, creating the dict if absent. -/
def effectiveFilter (metadata_filter : Option Metadata) (user_id : Option MVal) :
    Option Metadata :=
  match user_id with
  | some u => some (mset (metadata_filter.getD []) "user_id" (MVal.str (pyStr u)))
  | none => metadata_filter

/-- Filter argument handed to the vector search: Python tests the dict for
truthiness (rag_pipeline.py line 138), so None and the empty dict both mean
an unfiltered search. -/
def searchArg (mf : Option Metadata) : Option Metadata :=
  match mf with
  | some f => if f.isEmpty then none else some f
  | none => none

/-- RAGPipeline.retrieve (rag_pipeline.py lines 111-159). The vector index
is external; search models retriever.invoke, with the query and the
requested candidate count k already bound inside it (as_retriever is built
with search_kwargs k). keywords is the Python optional list, with [] for
both None and the empty list (identical falsy behaviour). -/
def retrieve (search : Option Metadata → List Doc) (k : Nat) (keywords : List String)
    (metadata_filter : Option Metadata) (user_id : Option MVal) : List Doc :=
  let mf := effectiveFilter metadata_filter user_id
  let results := search (searchArg mf)
  if keywords.isEmpty then results
  else
    let keyword_results := results.filter (kwMatch keywords)
    (dedupByOid (keyword_results ++ results)).take k

/-- Metadata attachment of RAGPipeline.ingest (rag_pipeline.py lines
98-102): per chunk, take the inherited metadata (or the empty dict), update
it with the supplied tags dict if that is truthy, then set
source_file = file_path. -/
def attachMetadata (file_path : String) (tags : Metadata) (docMeta : Metadata) :
    Metadata :=
  let m := if tags.isEmpty then docMeta else mupdate docMeta tags
  mset m "source_file" (MVal.str file_path)

/-- Last index of a character in a list, scanning with accumulator; -1 when
absent. This models Python str.rfind. -/
def lastIdxAux : List Char → Char → Int → Int → Int
  | [], _, _, best => best
  | a :: rest, c, i, best => lastIdxAux rest c (i + 1) (if a = c then i else best)

/-- Extension component of Python os.path.splitext on a posix path: the
suffix starting at the last dot of the basename, unless every character of
the basename before that dot is itself a dot. -/
def splitextExt (p : String) : String :=
  let cs := p.toList
  let sepIndex := lastIdxAux cs '/' 0 (-1)
  let dotIndex := lastIdxAux cs '.' 0 (-1)
  if sepIndex < dotIndex then
    let between := (cs.drop (sepIndex + 1).toNat).take (dotIndex - sepIndex - 1).toNat
    if between.any (fun c => !(c == '.')) then String.mk (cs.drop dotIndex.toNat)
    else ""
  else ""

/-- Fixed allow-set of file extensions (rag_pipeline.py line 11), shared by
the upload boundary and the loader. -/
def ALLOWED_FILE_EXTENSIONS : List String := [".pdf", ".docx", ".txt", ".csv", ".xlsx"]

/-- Per-format reader selected by the loader dispatch chain. -/
inductive LoaderKind where
  | pdf
  | docx
  | txt
  | csv
  | xlsx
deriving DecidableEq, Repr

/-- Dispatch chain of RAGPipeline.load_document (rag_pipeline.py lines
68-80) on an already-lowercased extension, raising ValueError for anything
outside the allow-set. -/
def dispatchExt (ext : String) : Except String LoaderKind :=
  if ext = ".pdf" then .ok .pdf
  else if ext = ".docx" then .ok .docx
  else if ext = ".txt" then .ok .txt
  else if ext = ".csv" then .ok .csv
  else if ext = ".xlsx" then .ok .xlsx
  else .error ("Unsupported file extension: " ++ ext)

/-- RAGPipeline.load_document extension handling (rag_pipeline.py lines
66-80): lowercase the splitext extension, then dispatch. -/
def load_document_dispatch (p : String) : Except String LoaderKind :=
  dispatchExt (lowerS (splitextExt p))

/-- Upload-boundary extension acceptance check (file_handler.py lines
19-22 and routes): the lowercased splitext extension must be in the
allow-set. -/
def upload_ext_ok (filename : String) : Bool :=
  ALLOWED_FILE_EXTENSIONS.contains (lowerS (splitextExt filename))

/-- Splitter chosen by the chunking step. -/
inductive SplitterKind where
  | headerK
  | characterK
deriving DecidableEq, Repr

/-- RAGPipeline._get_text_splitter (rag_pipeline.py lines 44-63). The
construction of MarkdownHeaderTextSplitter is external library code and may
raise; ctor carries its outcome. Only a header-branch construction error is
caught: it logs a fallback warning and the character splitter is returned.
The function returns the chosen splitter and the warnings recorded. -/
def getTextSplitter (chunking_strategy : String) (ext : String)
    (ctor : Except String Unit) : SplitterKind × List String :=
  if chunking_strategy = "header" ∨
      (chunking_strategy = "auto" ∧ (ext = ".md" ∨ ext = ".markdown")) then
    match ctor with
    | .ok _ => (.headerK, [])
    | .error e =>
      (.characterK, ["Header splitter failed: " ++ e ++ ", falling back to character splitter."])
  else (.characterK, [])

/-- Splitting step of RAGPipeline.ingest (rag_pipeline.py lines 93-95):
pick the splitter, then run splitter.split_documents. split carries the
outcome of split_documents per splitter; any error it raises propagates out
of ingest (the except clause on lines 107-109 logs and re-raises). -/
def ingestSplit (chunking_strategy : String) (ext : String)
    (ctor : Except String Unit) (split : SplitterKind → Except String (List Doc)) :
    Except String (List Doc) :=
  split (getTextSplitter chunking_strategy ext ctor).1

/-- Relational file record (database File model): id, filename, path on
disk, owning user. -/
structure FileRec where
  id : Int
  filename : String
  filepath : String
  user_id : Int
deriving DecidableEq, Repr

/-- Observable state touched by the upload/delete/clear flows: relational
file records, relational chat-history row count, paths present on disk, and
vector-index entry ids. -/
structure SysState where
  dbFiles : List FileRec
  chats : List Nat
  disk : List String
  vecIds : List String
deriving DecidableEq, Repr

/-- Compensation step of the upload flow (main.py lines 160-168,
file_routes.py lines 53-65): after the relational record f was created and
committed, ingest runs; on any ingest error the record is deleted and
committed, the file is removed from disk, and HTTP 500 wrapping the
original message is raised; on success the upload response is returned. -/
def uploadIngestStep (st : SysState) (f : FileRec)
    (ingestResult : Except String Unit) :
    SysState × Except (Nat × String) (Int × String) :=
  match ingestResult with
  | .ok _ => (st, .ok (f.id, f.filename))
  | .error e =>
    ({ st with
        dbFiles := st.dbFiles.filter (fun g => !(g.id == f.id)),
        disk := st.disk.filter (fun p => !(p == f.filepath)) },
      .error (500, "RAG ingestion failed: " ++ e))

/-- Outcome of the os.remove attempt in delete_file: removed, already
missing (FileNotFoundError, logged but not recorded as an error), or some
other OS failure with a message. -/
inductive DiskOutcome where
  | removed
  | missing
  | failed (msg : String)
deriving DecidableEq, Repr

/-- Python-level errors surfaced by a route call: an HTTPException with
status code and detail, or the AttributeError raised by calling .get on the
None that delete_file returns on its warnings path. -/
inductive PyError where
  | http (code : Nat) (detail : String)
  | attrNoneGet
deriving DecidableEq, Repr

/-- util.file_handler.delete_file (file_handler.py lines 66-102): look up
the record (404 if absent), best-effort disk removal (FileNotFoundError
tolerated, other failures appended to errors), then DB deletion with
rollback on failure (failure appended to errors). The Python function only
has a return statement in the no-errors branch, so with errors present it
implicitly returns None, modelled as .ok none. -/
def delete_file (st : SysState) (file_id : Int) (diskOut : DiskOutcome)
    (dbOut : Except String Unit) :
    SysState × Except (Nat × String) (Option (String × List String)) :=
  match st.dbFiles.find? (fun f => f.id == file_id) with
  | none => (st, .error (404, "File not found"))
  | some db_file =>
    let p1 : SysState × List String :=
      match diskOut with
      | .removed =>
        ({ st with disk := st.disk.filter (fun p => !(p == db_file.filepath)) }, [])
      | .missing => (st, [])
      | .failed m => (st, ["Failed to delete file from disk: " ++ m])
    let p2 : SysState × List String :=
      match dbOut with
      | .ok _ =>
        ({ p1.1 with dbFiles := p1.1.dbFiles.filter (fun f => !(f.id == file_id)) }, p1.2)
      | .error _ => (p1.1, p1.2 ++ ["Database cleanup failed."])
    if p2.2.isEmpty then (p2.1, .ok (some ("deleted", p2.2)))
    else (p2.1, .ok none)

/-- routes.file_routes.delete_file_in_db (file_routes.py lines 97-159):
ownership-checked deletion, then two independent vector-index delete
attempts whose failures are appended as warning strings. uid is the id of
the authenticated user's relational record; vecDel1/vecDel2 carry the
outcomes of the vectorstore delete calls filtered by file_id and by
filename. The second attempt re-queries the relational record and runs only
if it is still present. Calling .get on a None result from delete_file
raises AttributeError, which the enclosing except re-raises. -/
def delete_file_in_db (st : SysState) (file_id : Int) (uid : Int)
    (diskOut : DiskOutcome) (dbOut : Except String Unit)
    (vecDel1 vecDel2 : Except String Unit) :
    SysState × Except PyError (String × List String) :=
  match st.dbFiles.find? (fun f => f.id == file_id) with
  | none => (st, .error (.http 404 "File not found"))
  | some db_file =>
    if !(db_file.user_id == uid) then
      (st, .error (.http 403 "You are not authorized to delete this file"))
    else
      let r := delete_file st file_id diskOut dbOut
      match r.2 with
      | .error cd => (r.1, .error (.http cd.1 cd.2))
      | .ok none => (r.1, .error .attrNoneGet)
      | .ok (some sw) =>
        let errors1 :=
          match vecDel1 with
          | .ok _ => sw.2
          | .error e => sw.2 ++ ["Vectorstore delete by file_id failed: " ++ e]
        let errors2 :=
          match r.1.dbFiles.find? (fun f => f.id == file_id) with
          | some _ =>
            match vecDel2 with
            | .ok _ => errors1
            | .error e => errors1 ++ ["Vectorstore delete by filename failed: " ++ e]
          | none => errors1
        if errors2.isEmpty then (r.1, .ok ("deleted", errors2))
        else (r.1, .ok ("partial_success", errors2))

/-- util.sudo_handler.clear_all_service (sudo_handler.py lines 11-51):
token equality gate, then delete all chat and file records and commit, then
fetch all vector-index ids and delete them, then reinitialize the handle.
vecOps carries the outcome of the vector-index calls; a failure there
happens after the relational commit, so the relational deletions survive
the rollback and HTTP 500 is raised. -/
def clear_all_service (admin_token : String) (admin_env_token : String)
    (st : SysState) (vecOps : Except String Unit) :
    SysState × Except (Nat × String) (String × Nat × Nat) :=
  if !(admin_token == admin_env_token) then (st, .error (401, "Unauthorized"))
  else
    let chat_count := st.chats.length
    let file_count := st.dbFiles.length
    match vecOps with
    | .ok _ =>
      ({ st with dbFiles := [], chats := [], vecIds := [] },
        .ok ("cleared", file_count, chat_count))
    | .error e =>
      ({ st with dbFiles := [], chats := [] },
        .error (500, "Failed to clear all data: " ++ e))

/-- Observable result of a chat turn: the answer, the sources list, and the
document list used to build the LLM context (chat_handler.py line 73). -/
structure ChatOutcome where
  answer : String
  sources : List String
  contextDocs : List Doc
deriving DecidableEq, Repr

/-- Fixed answer returned when the user owns no files (chat_handler.py
lines 38-43). -/
def noFilesAnswer : String :=
  "No files are available for answering. Please upload a file first."

/-- System preamble of the chat prompt (chat_handler.py lines 74-80). -/
def chatSystemPrompt : String :=
  "You are a helpful AI assistant. Always answer in well-structured markdown. " ++
  "Use headings, bullet points, spacing and tables where appropriate. " ++
  "Format code and data for maximum readability." ++
  "Keep it concise and to the point." ++
  "If you don\x27t know the answer, say so.\n"

/-- Ownership post-filter of chat_service (chat_handler.py lines 67-69):
keep only retrieved documents whose str-coerced file_id metadata is among
the str-coerced ids of the files owned by the requesting user. -/
def filteredChatDocs (db_files : List FileRec) (docs : List Doc) : List Doc :=
  let current_file_ids := db_files.map (fun f => toString f.id)
  docs.filter (fun d => current_file_ids.contains (pyStrOpt (mget d.metadata "file_id")))

/-- Python str.rfind-based basename: the suffix after the last slash
(os.path.basename on posix). -/
def pyBasename (s : String) : String :=
  String.mk (s.toList.drop ((lastIdxAux s.toList '/' 0 (-1)) + 1).toNat)

/-- Character class of the uuid-stripping regex in chat_handler.py line
106: hex digits and dashes. -/
def isHexDash (c : Char) : Bool :=
  c.isDigit || (97 ≤ c.toNat && c.toNat ≤ 102) || (65 ≤ c.toNat && c.toNat ≤ 70) || c == '-'

/-- Python re.sub of a leading nonempty hex-or-dash run followed by an
underscore, replaced by the empty string (chat_handler.py line 106): strip
the longest leading run when an underscore follows it; otherwise the string
is unchanged (shorter runs are never followed by an underscore since the
underscore is outside the character class). -/
def stripUuidPre (s : String) : String :=
  let cs := s.toList
  let run := cs.takeWhile isHexDash
  if run.isEmpty then s
  else
    match cs.drop run.length with
    | '_' :: rest => String.mk rest
    | _ => s

/-- Display-name chain of chat_handler.py line 103: the first truthy value
among the source, filename and file_name metadata entries. -/
def chooseNameVal (m : Metadata) : Option MVal :=
  if pyTruthy (mget m "source") then mget m "source"
  else if pyTruthy (mget m "filename") then mget m "filename"
  else if pyTruthy (mget m "file_name") then mget m "file_name"
  else none

/-- Display name of a document for the sources list (chat_handler.py lines
103-108): basename with the uuid prefix stripped, or the Unknown File
placeholder. -/
def docBaseName (d : Doc) : String :=
  match chooseNameVal d.metadata with
  | some v => stripUuidPre (pyBasename (pyStr v))
  | none => "Unknown File"

/-- Increment the count of a key in an insertion-ordered counts dict
(chat_handler.py line 109). -/
def bumpCount (acc : List (String × Nat)) (k : String) : List (String × Nat) :=
  if acc.any (fun p => p.1 == k) then
    acc.map (fun p => if p.1 == k then (p.1, p.2 + 1) else p)
  else acc ++ [(k, 1)]

/-- Counts of display names over the context documents, in dict insertion
order (chat_handler.py lines 101-109). -/
def fileCounts (docs : List Doc) : List (String × Nat) :=
  docs.foldl (fun acc d => bumpCount acc (docBaseName d)) []

/-- Python max with a key function over dict keys: the first key attaining
the maximal count, in insertion order. -/
def firstArgmax (l : List (String × Nat)) : Option (String × Nat) :=
  l.foldl
    (fun best p =>
      match best with
      | none => some p
      | some q => if q.2 < p.2 then some p else some q)
    none

/-- Most relevant file of the answer (chat_handler.py lines 112-116). -/
def mostRelevantFile (docs : List Doc) : String :=
  match firstArgmax (fileCounts docs) with
  | some p => p.1
  | none => "Unknown File"

/-- Retrieval-and-answer part of chat_service (chat_handler.py lines
57-119) once the owned-file set is known to be nonempty and the metadata
filter settled: retrieve, post-filter by ownership, build the context and
prompt, call the LLM, and report the answer with its most relevant source.
The relational chat-history insertion is a side effect outside this model. -/
def chatCore (question : String) (db_files : List FileRec) (mf : Option Metadata)
    (retrieveF : Option Metadata → List Doc) (llm : String → String) :
    Except (Nat × String) ChatOutcome :=
  let docs := filteredChatDocs db_files (retrieveF mf)
  let context := String.intercalate "\n\n" (docs.map Doc.page_content)
  let answer :=
    llm (chatSystemPrompt ++ "Context:\n" ++ context ++ "\n\nQuestion: " ++
      question ++ "\nAnswer:")
  .ok { answer := answer, sources := [mostRelevantFile docs], contextDocs := docs }

/-- util.chat_handler.chat_service (chat_handler.py lines 10-124) for an
authenticated user: db_files is the relational query result for the files
the user owns; retrieveF models rag_pipeline.retrieve with question, k and
keywords bound; llm models ollama_llm.invoke. With no owned files the fixed
answer is returned before retrieval; a truthy file_id is validated against
the owned ids (403 on mismatch) and written into the metadata filter. -/
def chat_service (question : String) (file_id : Option Int)
    (db_files : List FileRec) (metadata_filter : Option Metadata)
    (retrieveF : Option Metadata → List Doc) (llm : String → String) :
    Except (Nat × String) ChatOutcome :=
  if db_files.isEmpty then
    .ok { answer := noFilesAnswer, sources := [], contextDocs := [] }
  else
    match file_id with
    | some fid =>
      if !(fid == 0) then
        if (db_files.map FileRec.id).contains fid then
          chatCore question db_files
            (some (mset (metadata_filter.getD []) "file_id" (MVal.int fid))) retrieveF llm
        else .error (403, "You do not have access to this file")
      else chatCore question db_files metadata_filter retrieveF llm
    | none => chatCore question db_files metadata_filter retrieveF llm

/- Concrete inputs used to witness and refute claims. -/

/-- Demo vector store holding chunks tagged to two different users. -/
def demoStore : List Doc :=
  [⟨1, "alpha notes", [("user_id", MVal.str "7")]⟩,
    ⟨2, "beta notes", [("user_id", MVal.str "8")]⟩]

/-- Demo vector search over demoStore honouring equality metadata filters,
as the external index contract specifies. -/
def searchDemo : Option Metadata → List Doc
  | none => demoStore
  | some f => demoStore.filter (fun d => f.all (fun p => mget d.metadata p.1 == some p.2))

/-- Demo candidates for the keyword re-rank: four vector hits of which
exactly two contain the keyword refund, case-insensitively. -/
def refundDocs : List Doc :=
  [⟨2, "shipping times", []⟩,
    ⟨1, "our refund policy is simple", []⟩,
    ⟨4, "contact us", []⟩,
    ⟨3, "REFUND exceptions", []⟩]

/-- Demo search returning the refund candidates for any filter. -/
def refundSearch : Option Metadata → List Doc := fun _ => refundDocs

/-- Two distinct candidate objects with identical content and metadata, as
produced when one file's repetitive text yields two equal chunks. -/
def dupDocA : Doc := ⟨1, "same paragraph", []⟩

/-- Second of the two identical-content candidates. -/
def dupDocB : Doc := ⟨2, "same paragraph", []⟩

/-- Demo search returning the two identical-content candidates. -/
def dupSearch : Option Metadata → List Doc := fun _ => [dupDocA, dupDocB]

/-- Tags mapping for the C3 counterexample: it contains a source_file entry
pointing away from the ingested path. -/
def c3Tags : Metadata := [("source_file", MVal.str "x")]

/-- Header-splitting outcome for the C8 counterexample: the header split
itself raises while the character splitter would succeed. -/
def c8Split : SplitterKind → Except String (List Doc)
  | .headerK => .error "malformed markdown"
  | .characterK => .ok []

/-- File record of the deletion counterexample state. -/
def c6File : FileRec := ⟨1, "a.txt", "/data/a.txt", 10⟩

/-- Deletion counterexample state: one owned file on disk with two
vector-index entries. -/
def c6State : SysState := ⟨[c6File], [], ["/data/a.txt"], ["v1", "v2"]⟩

/-- Owned-file list of the chat witness. -/
def chatDemoFiles : List FileRec := [⟨1, "a.txt", "/d/a.txt", 10⟩]

/-- Retrieval results of the chat witness: one chunk of the owned file, one
chunk of a foreign file, one chunk with no file_id metadata. -/
def chatDemoSearch : Option Metadata → List Doc := fun _ =>
  [⟨1, "owned chunk", [("file_id", MVal.int 1)]⟩,
    ⟨2, "foreign chunk", [("file_id", MVal.int 9)]⟩,
    ⟨3, "untagged chunk", []⟩]

/-- Expected chat outcome of the chat witness. -/
def chatDemoOut : ChatOutcome :=
  ⟨"ans", ["Unknown File"], [⟨1, "owned chunk", [("file_id", MVal.int 1)]⟩]⟩

/- Lemmas about the dict model. -/

theorem mset_ne_nil (m : Metadata) (q : String) (w : MVal) : mset m q w ≠ [] := by
  cases m with
  | nil => simp [mset]
  | cons h t =>
    obtain ⟨k, v⟩ := h
    by_cases hk : k = q <;> simp [mset, hk]

theorem mem_mset_self (m : Metadata) (q : String) (w : MVal) : (q, w) ∈ mset m q w := by
  induction m with
  | nil => simp [mset]
  | cons h t ih =>
    obtain ⟨k, v⟩ := h
    by_cases hk : k = q <;> simp [mset, hk, ih]

theorem mget_mset_self (m : Metadata) (q : String) (w : MVal) :
    mget (mset m q w) q = some w := by
  induction m with
  | nil => simp [mset, mget]
  | cons h t ih =>
    obtain ⟨k, v⟩ := h
    by_cases hk : k = q <;> simp [mset, mget, hk, ih]

theorem mget_mset_other (m : Metadata) (q r : String) (w : MVal) (h : r ≠ q) :
    mget (mset m q w) r = mget m r := by
  have hqr : q ≠ r := Ne.symm h
  induction m with
  | nil => simp [mset, mget, hqr]
  | cons hd t ih =>
    obtain ⟨k, v⟩ := hd
    by_cases hk : k = q
    · subst hk
      simp [mset, mget, hqr]
    · simp [mset, mget, hk, ih]

theorem mget_mupdate_not_mem (tags : Metadata) (m : Metadata) (r : String)
    (h : r ∉ tags.map Prod.fst) : mget (mupdate m tags) r = mget m r := by
  induction tags generalizing m with
  | nil => simp [mupdate]
  | cons hd t ih =>
    obtain ⟨k, v⟩ := hd
    simp only [List.map_cons, List.mem_cons, not_or] at h
    have step : mupdate m ((k, v) :: t) = mupdate (mset m k v) t := by
      simp [mupdate]
    rw [step, ih (mset m k v) h.2, mget_mset_other m k r v h.1]

theorem mget_mupdate_mem (tags : Metadata) (m : Metadata) (p : String × MVal)
    (hnd : (tags.map Prod.fst).Nodup) (hp : p ∈ tags) :
    mget (mupdate m tags) p.1 = some p.2 := by
  induction tags generalizing m with
  | nil => simp at hp
  | cons hd t ih =>
    obtain ⟨k, v⟩ := hd
    have step : mupdate m ((k, v) :: t) = mupdate (mset m k v) t := by
      simp [mupdate]
    simp only [List.map_cons, List.nodup_cons] at hnd
    rcases List.mem_cons.mp hp with he | ht
    · subst he
      rw [step, mget_mupdate_not_mem t (mset m k v) k hnd.1, mget_mset_self]
    · rw [step]
      exact ih (mset m k v) hnd.2 ht

/-- C3: the claim fails as stated — when the supplied tags mapping itself
contains a source_file key with a value different from the input path, the
final assignment overwrites it, so the stored metadata does not contain
that key-value pair of the tags mapping. -/
theorem ingest_tags_source_file_overwritten :
    ("source_file", MVal.str "x") ∈ c3Tags ∧
    ("source_file", MVal.str "x") ∉ attachMetadata "y" c3Tags [] ∧
    mget (attachMetadata "y" c3Tags []) "source_file" = some (MVal.str "y") := by
  refine ⟨by decide, by decide, by decide⟩

/-- C3 amended: every chunk metadata produced by ingest contains every
key-value pair of the supplied tags whose key is not source_file, and
always contains source_file mapped to the input path (which overrides any
source_file entry of the tags). -/
theorem ingest_metadata_superset (path : String) (tags docMeta : Metadata)
    (hnd : (tags.map Prod.fst).Nodup) :
    mget (attachMetadata path tags docMeta) "source_file" = some (MVal.str path) ∧
    ∀ p ∈ tags, p.1 ≠ "source_file" →
      mget (attachMetadata path tags docMeta) p.1 = some p.2 := by
  constructor
  · exact mget_mset_self _ _ _
  · intro p hp hne
    unfold attachMetadata
    have hne2 : ¬ tags.isEmpty := by
      cases tags with
      | nil => simp at hp
      | cons a t => simp
    rw [if_neg hne2, mget_mset_other _ _ _ _ hne, mget_mupdate_mem tags docMeta p hnd hp]

/-- C3 witness: the amended theorem applied at a concrete ingest call. -/
theorem ingest_metadata_superset_witness :
    (([("file_id", MVal.int 3), ("filename", MVal.str "a.txt")].map
        (Prod.fst (α := String) (β := MVal))).Nodup) ∧
    (mget (attachMetadata "/d/a.txt" [("file_id", MVal.int 3), ("filename", MVal.str "a.txt")]
        [("source", MVal.str "s")]) "source_file" = some (MVal.str "/d/a.txt") ∧
      ∀ p ∈ [("file_id", MVal.int 3), ("filename", MVal.str "a.txt")],
        p.1 ≠ "source_file" →
        mget (attachMetadata "/d/a.txt" [("file_id", MVal.int 3), ("filename", MVal.str "a.txt")]
          [("source", MVal.str "s")]) p.1 = some p.2) :=
  ⟨by decide,
    ingest_metadata_superset "/d/a.txt" [("file_id", MVal.int 3), ("filename", MVal.str "a.txt")]
      [("source", MVal.str "s")] (by decide)⟩

/-- C5: when ingestion raises after the relational record was created, the
upload flow raises HTTP 500 wrapping the original message, and the
compensating deletions leave no relational record with the file's id and no
file at its path, while the chat history is untouched. -/
theorem upload_ingest_failure_compensation (st : SysState) (f : FileRec) (e : String) :
    (uploadIngestStep st f (.error e)).2 = .error (500, "RAG ingestion failed: " ++ e) ∧
    f.id ∉ ((uploadIngestStep st f (.error e)).1.dbFiles.map FileRec.id) ∧
    f.filepath ∉ (uploadIngestStep st f (.error e)).1.disk ∧
    (uploadIngestStep st f (.error e)).1.chats = st.chats := by
  refine ⟨rfl, ?_, ?_, rfl⟩
  · simp [uploadIngestStep, List.mem_map, List.mem_filter]
  · simp [uploadIngestStep, List.mem_filter]

/-- C7: a clear-all call with a token different from the configured secret
fails with HTTP 401 Unauthorized and leaves the whole state (file records,
chat history, disk, vector index) unchanged. -/
theorem clear_all_unauthorized (t s : String) (st : SysState)
    (vecOps : Except String Unit) (h : t ≠ s) :
    clear_all_service t s st vecOps = (st, .error (401, "Unauthorized")) := by
  simp [clear_all_service, h]

/-- C7 witness: the unauthorized branch at a concrete token and state. -/
theorem clear_all_unauthorized_witness :
    ("wrong" : String) ≠ "supersecret" ∧
    clear_all_service "wrong" "supersecret"
        ⟨[⟨1, "a.txt", "/d/a.txt", 10⟩], [5], ["/d/a.txt"], ["v1"]⟩ (.ok ()) =
      (⟨[⟨1, "a.txt", "/d/a.txt", 10⟩], [5], ["/d/a.txt"], ["v1"]⟩,
        .error (401, "Unauthorized")) :=
  ⟨by decide,
    clear_all_unauthorized "wrong" "supersecret"
      ⟨[⟨1, "a.txt", "/d/a.txt", 10⟩], [5], ["/d/a.txt"], ["v1"]⟩ (.ok ()) (by decide)⟩

/- Lemmas about identity-keyed deduplication and retrieval. -/

theorem mem_of_mem_dedupByOidAux (seen : List Nat) (l : List Doc) (d : Doc)
    (h : d ∈ dedupByOidAux seen l) : d ∈ l := by
  induction l generalizing seen with
  | nil => simp [dedupByOidAux] at h
  | cons a t ih =>
    by_cases hc : a.oid ∈ seen
    · rw [dedupByOidAux, if_pos hc] at h
      exact List.mem_cons_of_mem _ (ih _ h)
    · rw [dedupByOidAux, if_neg hc] at h
      rcases List.mem_cons.mp h with he | ht
      · simp [he]
      · exact List.mem_cons_of_mem _ (ih _ ht)

theorem mem_retrieve (search : Option Metadata → List Doc) (k : Nat)
    (keywords : List String) (mf : Option Metadata) (uid : Option MVal) (d : Doc)
    (h : d ∈ retrieve search k keywords mf uid) :
    d ∈ search (searchArg (effectiveFilter mf uid)) := by
  unfold retrieve at h
  by_cases hk : keywords.isEmpty
  · simpa [hk] using h
  · simp only [hk, Bool.false_eq_true, if_false] at h
    have h1 := List.take_subset k _ h
    have h2 := mem_of_mem_dedupByOidAux [] _ _ h1
    rcases List.mem_append.mp h2 with hf | hr
    · exact (List.mem_filter.mp hf).1
    · exact hr

theorem dedupByOidAux_append (A B : List Doc) (seen : List Nat)
    (hnd : (A.map Doc.oid).Nodup) (hs : ∀ a ∈ A, a.oid ∉ seen) :
    dedupByOidAux seen (A ++ B) = A ++ dedupByOidAux (A.reverse.map Doc.oid ++ seen) B := by
  induction A generalizing seen with
  | nil => simp
  | cons a t ih =>
    have ha : a.oid ∉ seen := hs a (by simp)
    simp only [List.map_cons, List.nodup_cons] at hnd
    rw [List.cons_append, dedupByOidAux, if_neg ha]
    have hs2 : ∀ x ∈ t, x.oid ∉ a.oid :: seen := by
      intro x hx
      simp only [List.mem_cons, not_or]
      refine ⟨?_, hs x (List.mem_cons_of_mem _ hx)⟩
      intro hco
      exact hnd.1 (hco ▸ List.mem_map_of_mem Doc.oid hx)
    rw [ih (a.oid :: seen) hnd.2 hs2]
    simp [List.append_assoc]

theorem dedupByOidAux_filter (p : Doc → Bool) (B : List Doc) (seen : List Nat)
    (hnd : (B.map Doc.oid).Nodup)
    (h : ∀ b ∈ B, (b.oid ∈ seen ↔ p b = true)) :
    dedupByOidAux seen B = B.filter (fun b => ! p b) := by
  induction B generalizing seen with
  | nil => rfl
  | cons b t ih =>
    simp only [List.map_cons, List.nodup_cons] at hnd
    by_cases hp : p b = true
    · rw [dedupByOidAux, if_pos ((h b (by simp)).mpr hp), List.filter_cons]
      simp only [hp, Bool.not_true, Bool.false_eq_true, if_false]
      exact ih seen hnd.2 (fun x hx => h x (List.mem_cons_of_mem _ hx))
    · have hb : b.oid ∉ seen := fun hmem => hp ((h b (by simp)).mp hmem)
      rw [dedupByOidAux, if_neg hb, List.filter_cons]
      simp only [hp, Bool.not_eq_true] at hp ⊢
      simp only [hp, Bool.not_false, if_true]
      congr 1
      refine ih (b.oid :: seen) hnd.2 ?_
      intro x hx
      constructor
      · intro hmem
        rcases List.mem_cons.mp hmem with he | hseen
        · exact absurd (he ▸ List.mem_map_of_mem Doc.oid hx) hnd.1
        · exact (h x (List.mem_cons_of_mem _ hx)).mp hseen
      · intro hpx
        exact List.mem_cons_of_mem _ ((h x (List.mem_cons_of_mem _ hx)).mpr hpx)

theorem dedupByOid_filter_append (p : Doc → Bool) (R : List Doc)
    (hnd : (R.map Doc.oid).Nodup) :
    dedupByOid (R.filter p ++ R) = R.filter p ++ R.filter (fun d => ! p d) := by
  have hndA : ((R.filter p).map Doc.oid).Nodup :=
    hnd.sublist ((List.filter_sublist R).map Doc.oid)
  unfold dedupByOid
  rw [dedupByOidAux_append (R.filter p) R [] hndA (by simp)]
  congr 1
  refine dedupByOidAux_filter p R _ hnd ?_
  intro b hb
  have hmem : b.oid ∈ ((R.filter p).reverse.map Doc.oid ++ []) ↔
      b.oid ∈ (R.filter p).map Doc.oid := by
    simp [List.mem_reverse]
  rw [hmem]
  constructor
  · intro hin
    rcases List.mem_map.mp hin with ⟨a, haf, hao⟩
    have haR := (List.mem_filter.mp haf).1
    have hab : a = b := List.inj_on_of_nodup_map hnd haR hb hao
    exact hab ▸ (List.mem_filter.mp haf).2
  · intro hpb
    exact List.mem_map_of_mem Doc.oid (List.mem_filter.mpr ⟨hb, hpb⟩)

/-- C1: with a non-null userId, the filter passed to the vector search is
the (possibly freshly created) metadata filter carrying user_id mapped to
the string-coerced userId, and — given that the external index honours
equality metadata filters — every document the call returns carries exactly
that user_id metadata value, so no chunk of a different user appears. -/
theorem retrieve_user_scoping (search : Option Metadata → List Doc) (k : Nat)
    (keywords : List String) (metadata_filter : Option Metadata) (u : MVal)
    (hsearch : ∀ f, ∀ d ∈ search (some f), ∀ p ∈ f, mget d.metadata p.1 = some p.2) :
    (∃ f, effectiveFilter metadata_filter (some u) = some f ∧
      ("user_id", MVal.str (pyStr u)) ∈ f ∧ searchArg (some f) = some f) ∧
    ∀ d ∈ retrieve search k keywords metadata_filter (some u),
      mget d.metadata "user_id" = some (MVal.str (pyStr u)) := by
  set f := mset (metadata_filter.getD []) "user_id" (MVal.str (pyStr u)) with hf
  have hne : f ≠ [] := mset_ne_nil _ _ _
  have hemp : f.isEmpty = false := by
    cases hc : f with
    | nil => exact absurd hc hne
    | cons a t => rfl
  have hargs : searchArg (some f) = some f := by
    simp [searchArg, hemp]
  have heff : effectiveFilter metadata_filter (some u) = some f := rfl
  refine ⟨⟨f, heff, mem_mset_self _ _ _, hargs⟩, ?_⟩
  intro d hd
  have hmem : d ∈ search (some f) := by
    have := mem_retrieve search k keywords metadata_filter (some u) d hd
    rwa [heff, hargs] at this
  exact hsearch f d hmem _ (mem_mset_self _ _ _)

/-- C1 witness: a store holding chunks of users 7 and 8 behind a
filter-honouring search; retrieval as user 7 only surfaces user-7 chunks. -/
theorem retrieve_user_scoping_witness :
    (∀ f, ∀ d ∈ searchDemo (some f), ∀ p ∈ f, mget d.metadata p.1 = some p.2) ∧
    ((∃ f, effectiveFilter none (some (MVal.int 7)) = some f ∧
      ("user_id", MVal.str (pyStr (MVal.int 7))) ∈ f ∧ searchArg (some f) = some f) ∧
    ∀ d ∈ retrieve searchDemo 4 [] none (some (MVal.int 7)),
      mget d.metadata "user_id" = some (MVal.str (pyStr (MVal.int 7)))) := by
  have hhon : ∀ f, ∀ d ∈ searchDemo (some f), ∀ p ∈ f, mget d.metadata p.1 = some p.2 := by
    intro f d hd p hp
    simp only [searchDemo, List.mem_filter, List.all_eq_true] at hd
    exact eq_of_beq (hd.2 p hp)
  exact ⟨hhon, retrieve_user_scoping searchDemo 4 [] none (MVal.int 7) hhon⟩

/-- C2: with a non-empty keyword list and identity-distinct candidates, the
output of retrieve is exactly the candidate list re-ranked — the candidates
containing some keyword case-insensitively first, in original relative
order, then the remaining candidates in original relative order — truncated
to k; in particular nothing outside the candidate list appears. -/
theorem retrieve_keyword_rerank (search : Option Metadata → List Doc) (k : Nat)
    (keywords : List String) (mf : Option Metadata) (uid : Option MVal)
    (hkw : keywords ≠ [])
    (hnd : ((search (searchArg (effectiveFilter mf uid))).map Doc.oid).Nodup) :
    retrieve search k keywords mf uid =
      ((search (searchArg (effectiveFilter mf uid))).filter (kwMatch keywords) ++
        (search (searchArg (effectiveFilter mf uid))).filter
          (fun d => ! kwMatch keywords d)).take k := by
  have hk : keywords.isEmpty = false := by
    cases keywords with
    | nil => exact absurd rfl hkw
    | cons a t => rfl
  unfold retrieve
  simp only [hk, Bool.false_eq_true, if_false]
  rw [dedupByOid_filter_append (kwMatch keywords) _ hnd]

/-- C2 witness: the spec's refund scenario — four candidates, two matching
the keyword, k = 4 — re-ranked to matches first in original order. -/
theorem retrieve_keyword_rerank_witness :
    (["refund"] : List String) ≠ [] ∧
    ((refundSearch (searchArg (effectiveFilter (some []) none))).map Doc.oid).Nodup ∧
    retrieve refundSearch 4 ["refund"] (some []) none =
      ((refundSearch (searchArg (effectiveFilter (some []) none))).filter
          (kwMatch ["refund"]) ++
        (refundSearch (searchArg (effectiveFilter (some []) none))).filter
          (fun d => ! kwMatch ["refund"] d)).take 4 :=
  ⟨by decide, by decide,
    retrieve_keyword_rerank refundSearch 4 ["refund"] (some []) none (by decide) (by decide)⟩

theorem dedupByOidAux_nodup_avoid (seen : List Nat) (l : List Doc) :
    ((dedupByOidAux seen l).map Doc.oid).Nodup ∧
    ∀ d ∈ dedupByOidAux seen l, d.oid ∉ seen := by
  induction l generalizing seen with
  | nil => simp [dedupByOidAux]
  | cons a t ih =>
    by_cases hc : a.oid ∈ seen
    · rw [dedupByOidAux, if_pos hc]
      exact ih seen
    · rw [dedupByOidAux, if_neg hc]
      obtain ⟨ihn, ihs⟩ := ih (a.oid :: seen)
      refine ⟨?_, ?_⟩
      · rw [List.map_cons, List.nodup_cons]
        refine ⟨?_, ihn⟩
        intro hmem
        rcases List.mem_map.mp hmem with ⟨x, hx, hxo⟩
        exact ihs x hx (hxo ▸ List.mem_cons_self _ _)
      · intro d hd
        rcases List.mem_cons.mp hd with he | ht
        · exact he ▸ hc
        · exact fun hds => ihs d ht (List.mem_cons_of_mem _ hds)

/-- C4 counterexample: a legitimate candidate pool (two identity-distinct
candidates, within the k = 2 budget) in which both candidates carry the
same content and metadata; retrieve keeps both, so the output is not
duplicate-free under content-plus-metadata equality. -/
theorem retrieve_duplicate_chunks :
    ((dupSearch (searchArg (effectiveFilter none none))).map Doc.oid).Nodup ∧
    (dupSearch (searchArg (effectiveFilter none none))).length ≤ 2 ∧
    ¬ (retrieve dupSearch 2 ["same"] none none).Pairwise
        (fun a b => ¬ (a.page_content = b.page_content ∧ a.metadata = b.metadata)) := by
  refine ⟨by decide, by decide, ?_⟩
  intro hpw
  have : retrieve dupSearch 2 ["same"] none none = [dupDocA, dupDocB] := by decide
  rw [this] at hpw
  exact (List.pairwise_cons.mp hpw).1 dupDocB (by simp) ⟨rfl, rfl⟩

/-- C4 amended: provided the external index returns at most k candidates
with pairwise-distinct object identities, retrieve returns at most k
documents and never repeats a candidate object (dedup is by identity);
distinct candidates with equal content and metadata may however both
appear, so duplicate-freeness under content-plus-metadata equality fails. -/
theorem retrieve_bounded_and_identity_nodup (search : Option Metadata → List Doc)
    (k : Nat) (keywords : List String) (mf : Option Metadata) (uid : Option MVal)
    (hlen : ∀ f, (search f).length ≤ k)
    (hnd : ∀ f, ((search f).map Doc.oid).Nodup) :
    (retrieve search k keywords mf uid).length ≤ k ∧
    ((retrieve search k keywords mf uid).map Doc.oid).Nodup := by
  unfold retrieve
  by_cases hk : keywords.isEmpty
  · simp only [hk, if_true]
    exact ⟨hlen _, hnd _⟩
  · simp only [hk, Bool.false_eq_true, if_false]
    constructor
    · exact List.length_take_le k _
    · apply List.Nodup.sublist ((List.take_sublist k _).map Doc.oid)
      exact (dedupByOidAux_nodup_avoid [] _).1

/-- C4 witness: the amended bound and identity-distinctness at the
counterexample's own candidate pool. -/
theorem retrieve_bounded_and_identity_nodup_witness :
    (∀ f, (dupSearch f).length ≤ 2) ∧
    (∀ f, ((dupSearch f).map Doc.oid).Nodup) ∧
    ((retrieve dupSearch 2 ["same"] none none).length ≤ 2 ∧
      ((retrieve dupSearch 2 ["same"] none none).map Doc.oid).Nodup) :=
  ⟨fun _ => by show ([dupDocA, dupDocB]).length ≤ 2; decide,
    fun _ => by show ([dupDocA, dupDocB].map Doc.oid).Nodup; decide,
    retrieve_bounded_and_identity_nodup dupSearch 2 ["same"] none none
      (fun _ => by show ([dupDocA, dupDocB]).length ≤ 2; decide)
      (fun _ => by show ([dupDocA, dupDocB].map Doc.oid).Nodup; decide)⟩

theorem dispatchExt_allowlist (ext : String) :
    ((∃ lk, dispatchExt ext = .ok lk) ↔ ext ∈ ALLOWED_FILE_EXTENSIONS) ∧
    (dispatchExt ext = .error ("Unsupported file extension: " ++ ext) ↔
      ext ∉ ALLOWED_FILE_EXTENSIONS) := by
  unfold dispatchExt ALLOWED_FILE_EXTENSIONS
  split_ifs with h1 h2 h3 h4 h5 <;> simp_all

/-- C9: the loader dispatch accepts exactly the lowercased-extension
allow-set — it fails with the unsupported-extension error precisely when
the lowercased splitext extension is outside the fixed set — and the upload
boundary check accepts exactly the same file names as the loader. -/
theorem loader_and_upload_allowlist (p : String) :
    ((∃ lk, load_document_dispatch p = .ok lk) ↔
      lowerS (splitextExt p) ∈ ALLOWED_FILE_EXTENSIONS) ∧
    (load_document_dispatch p =
        .error ("Unsupported file extension: " ++ lowerS (splitextExt p)) ↔
      lowerS (splitextExt p) ∉ ALLOWED_FILE_EXTENSIONS) ∧
    (upload_ext_ok p = true ↔ (∃ lk, load_document_dispatch p = .ok lk)) := by
  obtain ⟨h1, h2⟩ := dispatchExt_allowlist (lowerS (splitextExt p))
  refine ⟨h1, h2, ?_⟩
  unfold upload_ext_ok load_document_dispatch
  rw [h1]
  simp

/-- C8 counterexample: with the header strategy selected and the header
splitter successfully constructed, an error raised by the header split
itself propagates out of the ingest splitting step — no fallback to the
character splitter happens (which would have succeeded) and no warning is
recorded — contradicting the claim that such errors are never raised to the
ingest caller. -/
theorem header_split_error_propagates :
    ingestSplit "header" ".txt" (.ok ()) c8Split = .error "malformed markdown" ∧
    (getTextSplitter "header" ".txt" (.ok ())).2 = [] ∧
    c8Split .characterK = .ok [] :=
  ⟨rfl, rfl, rfl⟩

/-- C8 amended: whenever the header strategy is selected, an error raised
while constructing the header splitter is non-fatal — the pipeline falls
back to the character splitter and records a warning, and the ingest
splitting step proceeds with the character splitter — whereas an error
raised during the split itself propagates to the ingest caller. -/
theorem header_ctor_error_fallback (strategy ext e : String)
    (split : SplitterKind → Except String (List Doc))
    (hsel : strategy = "header" ∨ (strategy = "auto" ∧ (ext = ".md" ∨ ext = ".markdown"))) :
    getTextSplitter strategy ext (.error e) =
      (.characterK,
        ["Header splitter failed: " ++ e ++ ", falling back to character splitter."]) ∧
    ingestSplit strategy ext (.error e) split = split .characterK := by
  have h1 : getTextSplitter strategy ext (.error e) =
      (.characterK,
        ["Header splitter failed: " ++ e ++ ", falling back to character splitter."]) := by
    unfold getTextSplitter
    rw [if_pos hsel]
  refine ⟨h1, ?_⟩
  unfold ingestSplit
  rw [h1]

/-- C8 witness: the fallback at a markdown file under the auto strategy
whose header-splitter construction raises. -/
theorem header_ctor_error_fallback_witness :
    (("auto" : String) = "header" ∨
      (("auto" : String) = "auto" ∧ ((".md" : String) = ".md" ∨ (".md" : String) = ".markdown"))) ∧
    (getTextSplitter "auto" ".md" (.error "TypeError") =
      (.characterK,
        ["Header splitter failed: " ++ "TypeError" ++ ", falling back to character splitter."]) ∧
    ingestSplit "auto" ".md" (.error "TypeError") c8Split = c8Split .characterK) :=
  ⟨Or.inr ⟨rfl, Or.inl rfl⟩,
    header_ctor_error_fallback "auto" ".md" "TypeError" c8Split (Or.inr ⟨rfl, Or.inl rfl⟩)⟩

/-- C6: the code evaluated at the failing input — deletion of an existing
owned file whose disk removal raises a non-FileNotFoundError. delete_file
records the warning but then returns Python None, so the route crashes with
AttributeError instead of returning a status-plus-warnings value, and the
vector-index deletion attempts never run; by contrast, a pure vector-index
failure after a clean relational deletion does produce the claimed
partial-success-with-warnings response. -/
theorem delete_file_warning_path_crashes :
    (delete_file c6State 1 (.failed "Permission denied") (.ok ())).2 = .ok none ∧
    (delete_file_in_db c6State 1 10 (.failed "Permission denied") (.ok ()) (.ok ()) (.ok ())).2 =
      .error .attrNoneGet ∧
    (delete_file_in_db c6State 1 10 .removed (.ok ()) (.error "index down") (.ok ())).2 =
      .ok ("partial_success", ["Vectorstore delete by file_id failed: index down"]) :=
  ⟨rfl, rfl, rfl⟩

theorem mem_filteredChatDocs (db_files : List FileRec) (docs : List Doc) (d : Doc)
    (h : d ∈ filteredChatDocs db_files docs) :
    d ∈ docs ∧ ∃ f ∈ db_files, pyStrOpt (mget d.metadata "file_id") = toString f.id := by
  unfold filteredChatDocs at h
  rw [List.mem_filter] at h
  refine ⟨h.1, ?_⟩
  have hm : pyStrOpt (mget d.metadata "file_id") ∈ db_files.map (fun f => toString f.id) := by
    simpa using h.2
  rcases List.mem_map.mp hm with ⟨f, hf, he⟩
  exact ⟨f, hf, he.symm⟩

theorem chatCore_contextDocs (q : String) (fs : List FileRec) (mf : Option Metadata)
    (rF : Option Metadata → List Doc) (llm : String → String) (out : ChatOutcome)
    (h : chatCore q fs mf rF llm = .ok out) :
    out.contextDocs = filteredChatDocs fs (rF mf) := by
  simp only [chatCore, Except.ok.injEq] at h
  rw [← h]

theorem chat_service_ok_chatCore (q : String) (fid : Option Int) (fs : List FileRec)
    (mfil : Option Metadata) (rF : Option Metadata → List Doc) (llm : String → String)
    (out : ChatOutcome) (hne : fs.isEmpty = false)
    (h : chat_service q fid fs mfil rF llm = .ok out) :
    ∃ mf, chatCore q fs mf rF llm = .ok out := by
  unfold chat_service at h
  rw [if_neg (by simp [hne])] at h
  cases fid with
  | none => exact ⟨_, h⟩
  | some n =>
    dsimp only at h
    by_cases hz : (!(n == 0)) = true
    · rw [if_pos hz] at h
      by_cases hc : ((fs.map FileRec.id).contains n) = true
      · rw [if_pos hc] at h
        exact ⟨_, h⟩
      · rw [if_neg hc] at h
        cases h
    · rw [if_neg hz] at h
      exact ⟨_, h⟩

/-- C10: with no owned files, chat_service returns the fixed no-files
answer with empty sources and an empty context, independently of the
retrieval function and the LLM; and in every successful chat turn, each
document used to build the LLM context carries a file_id metadata value
whose string form equals the string form of the id of some file owned by
the requesting user (documents with missing or non-owned file_id having
been discarded after retrieval). -/
theorem chat_ownership_scoping (question : String) (file_id : Option Int)
    (db_files : List FileRec) (metadata_filter : Option Metadata)
    (retrieveF : Option Metadata → List Doc) (llm : String → String) :
    (chat_service question file_id [] metadata_filter retrieveF llm =
      .ok ⟨noFilesAnswer, [], []⟩) ∧
    (∀ out, chat_service question file_id db_files metadata_filter retrieveF llm = .ok out →
      ∀ d ∈ out.contextDocs,
        ∃ f ∈ db_files, pyStrOpt (mget d.metadata "file_id") = toString f.id) := by
  constructor
  · rfl
  · intro out hout d hd
    by_cases he : db_files.isEmpty = true
    · unfold chat_service at hout
      rw [if_pos he] at hout
      simp only [Except.ok.injEq] at hout
      rw [← hout] at hd
      simp at hd
    · have hne : db_files.isEmpty = false := Bool.eq_false_iff.mpr he
      rcases chat_service_ok_chatCore question file_id db_files metadata_filter
        retrieveF llm out hne hout with ⟨mf, hcc⟩
      have hctx := chatCore_contextDocs question db_files mf retrieveF llm out hcc
      rw [hctx] at hd
      exact (mem_filteredChatDocs db_files _ d hd).2

/-- C10 witness: one owned file; retrieval returns one owned, one foreign
and one untagged chunk; only the owned chunk reaches the context. -/
theorem chat_ownership_scoping_witness :
    chat_service "q" none chatDemoFiles none chatDemoSearch (fun _ => "ans") =
      .ok chatDemoOut ∧
    ∀ d ∈ chatDemoOut.contextDocs,
      ∃ f ∈ chatDemoFiles, pyStrOpt (mget d.metadata "file_id") = toString f.id :=
  ⟨rfl,
    (chat_ownership_scoping "q" none chatDemoFiles none chatDemoSearch
      (fun _ => "ans")).2 chatDemoOut rfl⟩

end RagNRock
